import Mathlib

/-!
# Verification of the YAndor acquisition core (`andor.c`)

A shallow embedding of the acquisition core of `andor.c` (YAndor, a Yorick
plugin for Andor cameras): the buffer-pool arithmetic (`ROUND_UP`,
`FIRST_FRAME`), the pixel-encoding registry and decoders
(`extract_Mono8/12/16/32`, `extract_Mono12Packed`, raw fallback), and the
acquisition state machine (`start_acquisition`, `stop_acquisition`,
`Y_andor_wait_image`).

Modelling conventions:
* machine addresses and byte values are `Nat`; a frame buffer is a
  `List Nat` of bytes (reads out of range yield 0, matching the fact that
  the C code never checks bounds — the properties proved only ever read
  in-range bytes);
* multi-byte samples are read little-endian, matching the x86 hosts the
  plugin targets (a `memcpy` into a `uint16_t` array is modelled by
  little-endian 16-bit reads);
* the hardware (`AT_*` SDK calls) is an oracle: an environment record
  supplies the values and success/failure results the device would return;
* `y_error` (a `longjmp`-style fatal error) is modelled by returning a
  result record with an `error` field set and no further state mutation;
  `warning` appends a message to a warning list.
-/

/-! ## Utilities from `andor.c` lines 38-46 -/

/-- `#define ROUND_UP(a, b) ((((b) - 1 + (a))/(b))*(b))` (C integer division). -/
def ROUND_UP (a b : Nat) : Nat := ((b - 1 + a) / b) * b

/-- `#define FRAME_ALIGN 8` : frame buffers are aligned on 8-byte boundaries. -/
def FRAME_ALIGN : Nat := 8

/-! ## Bit-manipulation toolkit (for the 12-bit packed decoder) -/

theorem and_fifteen (x : Nat) : x &&& 15 = x % 16 :=
  Nat.and_pow_two_sub_one_eq_mod x 4

theorem shiftLeft_four (x : Nat) : x <<< 4 = x * 16 := by
  rw [Nat.shiftLeft_eq]

theorem shiftRight_four (x : Nat) : x >>> 4 = x / 16 := by
  rw [Nat.shiftRight_eq_div_pow]

theorem or_of_low (a b : Nat) (h : b < 16) : (a <<< 4) ||| b = 16 * a + b := by
  have h4 : b < 2 ^ 4 := h
  have h5 := Nat.mul_add_lt_is_or h4 a
  rw [show (2 : Nat) ^ 4 = 16 from rfl] at h5
  rw [shiftLeft_four, Nat.mul_comm a 16]
  exact h5.symm

/-! ## Frame sources

A raw frame is a list of bytes; `getByte` is the model of dereferencing
`src[i]` for `const unsigned char* src`. -/

/-- Byte `i` of a frame source (`src[i]` in C). -/
def getByte (src : List Nat) (i : Nat) : Nat := src.getD i 0

/-- Little-endian read of `esize` bytes starting at offset `i`: the model of
`memcpy`-ing `esize` bytes into an unsigned integer on the (little-endian)
hosts this plugin runs on. -/
def readLE : Nat → List Nat → Nat → Nat
  | 0, _, _ => 0
  | e + 1, src, i => getByte src i + 256 * readLE e src (i + 1)

/-- The first `n` bytes of a source, as copied out by a single bulk `memcpy`
of `n` bytes. -/
def bulk_copy (n : Nat) (src : List Nat) : List Nat :=
  (List.range n).map (fun i => getByte src i)

/-! ## Pixel decoder registry (`pixel_encoding_table`, lines 314-335)

In C each row carries a function pointer `extract_<name>`; here the
function pointer is a tag from `Decoder`. -/

/-- One tag per `extract_*` routine of `andor.c`. -/
inductive Decoder where
  | Raw
  | Mono8
  | Mono12Packed
  | Mono12
  | Mono16
  | Mono32
  | RGB8Packed
  | Mono12Coded
  | Mono12codedPacked
  | Mono12parallel
  | Mono12PackedParallel
  deriving DecidableEq, Repr

/-- The rows of `pixel_encoding_table` in source order (the terminating
`{NULL, NULL, NULL}` row is represented by the end of the list). -/
def pixel_encoding_table : List (String × Decoder) :=
  [("Raw", Decoder.Raw),
   ("Mono8", Decoder.Mono8),
   ("Mono12Packed", Decoder.Mono12Packed),
   ("Mono12", Decoder.Mono12),
   ("Mono16", Decoder.Mono16),
   ("Mono32", Decoder.Mono32),
   ("RGB8Packed", Decoder.RGB8Packed),
   ("Mono12Coded", Decoder.Mono12Coded),
   ("Mono12codedPacked", Decoder.Mono12codedPacked),
   ("Mono12parallel", Decoder.Mono12parallel),
   ("Mono12PackedParallel", Decoder.Mono12PackedParallel)]

/-- The search loop of `get_pixel_encoding` (lines 563-569): first compare
the first character, then the whole string (`wcscmp`); return the table
index of the first exact match, `-1` if none. -/
def encoding_search (enc : String) : List (String × Decoder) → Nat → Int
  | [], _ => -1
  | (name, _) :: rest, i =>
    if name.front == enc.front && name == enc then Int.ofNat i
    else encoding_search enc rest (i + 1)

/-- `get_pixel_encoding` reduced to its pure part: the device-reported
encoding string is supplied by the environment (the `AT_GetEnumIndex` /
`AT_GetEnumStringByIndex` calls are assumed to succeed, as the claims under
study only exercise the lookup). -/
def get_pixel_encoding (enc : String) : Int :=
  encoding_search enc pixel_encoding_table 0

/-- Decoder selection in `start_acquisition` (lines 590-596): on a failed
lookup, warn `"Unknown pixel encoding."` once and fall back to
`extract_Raw`; otherwise take the `extract` member of the matching row.
Returns the selected decoder and the warnings emitted. -/
def select_decoder (enc : String) : Decoder × List String :=
  if get_pixel_encoding enc = -1 then
    (Decoder.Raw, ["Unknown pixel encoding."])
  else
    ((pixel_encoding_table.getD (get_pixel_encoding enc).toNat ("", Decoder.Raw)).2, [])

/-- Which `extract_*` routines print a one-time (`static int warn`) warning
when invoked on a frame (the `FUNCTION(FORMAT)` fallback macro,
lines 1198-1214). `extract_Raw` and the numeric decoders never warn. -/
def extract_warns_once : Decoder → Bool
  | Decoder.RGB8Packed => true
  | Decoder.Mono12Coded => true
  | Decoder.Mono12codedPacked => true
  | Decoder.Mono12parallel => true
  | Decoder.Mono12PackedParallel => true
  | _ => false

/-- Number of warnings emitted by `n` successive frame extractions with
decoder `d` within one process: the fallback routines warn on the first
call only (their `static int warn` latch), every other routine never
warns. -/
def extract_call_warnings (d : Decoder) (n : Nat) : Nat :=
  if extract_warns_once d then min n 1 else 0

/-! ## Raw and monochrome decoders (lines 1140-1196)

`extract_Raw` copies `frame_size` bytes verbatim.  The `FUNCTION` macro of
lines 1149-1191 instantiates, for each monochrome format, one routine that
(for equal source/destination element size, which holds for all four
instantiations) does a single bulk `memcpy` when `row_stride` equals the
tight row size and a per-row `memcpy` otherwise.  The macro is modelled by
`extract_mono` parameterised by the element byte size, and each
instantiation by a specialisation, exactly as the C preprocessor does. -/

/-- `extract_Raw` (lines 1140-1147): `frame_size` bytes copied verbatim. -/
def extract_Raw (frame_size : Nat) (src : List Nat) : List Nat :=
  (List.range frame_size).map (fun i => getByte src i)

/-- Body of the `FUNCTION(NAME, DST_TYPE, PUSH, SRC_TYPE)` macro
(lines 1149-1191) for the same-size case `sizeof(SRC_TYPE) ==
sizeof(DST_TYPE) == esize`: a `height × width` array of samples.  The
`memcpy` branch (stride equal to the tight row size) and the row-by-row
branch are kept separate as in the C. -/
def extract_mono (esize width height row_stride : Nat) (src : List Nat) :
    List (List Nat) :=
  if row_stride = esize * width then
    (List.range height).map (fun y =>
      (List.range width).map (fun x => readLE esize src (esize * (y * width + x))))
  else
    (List.range height).map (fun y =>
      (List.range width).map (fun x => readLE esize src (y * row_stride + esize * x)))

/-- Dense (gapless) interpretation of a byte array as `height` rows of
`width` samples of `esize` bytes: what the destination array holds after a
single bulk copy of `height * (esize * width)` bytes. -/
def bulk_decode (esize width height : Nat) (bytes : List Nat) : List (List Nat) :=
  (List.range height).map (fun y =>
    (List.range width).map (fun x => readLE esize bytes (esize * (y * width + x))))

/-- `FUNCTION(extract_Mono8,  unsigned char,  ypush_c, uint8_t)` -/
def extract_Mono8 : Nat → Nat → Nat → List Nat → List (List Nat) := extract_mono 1

/-- `FUNCTION(extract_Mono12, unsigned short, ypush_s, uint16_t)` -/
def extract_Mono12 : Nat → Nat → Nat → List Nat → List (List Nat) := extract_mono 2

/-- `FUNCTION(extract_Mono16, unsigned short, ypush_s, uint16_t)` -/
def extract_Mono16 : Nat → Nat → Nat → List Nat → List (List Nat) := extract_mono 2

/-- `FUNCTION(extract_Mono32, unsigned int,   ypush_i, uint32_t)` -/
def extract_Mono32 : Nat → Nat → Nat → List Nat → List (List Nat) := extract_mono 4

/-! ## The 12-bit packed decoder (lines 1216-1256) -/

/-- `#define EXTRACTLOWPACKED(ptr)  ((ptr[0] << 4) | (ptr[1] & 0xF))` at
offset `p` of the source. -/
def EXTRACTLOWPACKED (src : List Nat) (p : Nat) : Nat :=
  (getByte src p <<< 4) ||| (getByte src (p + 1) &&& 15)

/-- `#define EXTRACTHIGHPACKED(ptr) ((ptr[2] << 4) | (ptr[1] >> 4))` at
offset `p` of the source. -/
def EXTRACTHIGHPACKED (src : List Nat) (p : Nat) : Nat :=
  (getByte src (p + 2) <<< 4) ||| (getByte src (p + 1) >>> 4)

/-- The inner `while (dst_ptr < dst_end)` loop of `extract_Mono12Packed`:
`n` iterations, each emitting a low/high sample pair and advancing the
source by 3 bytes. -/
def mono12_pairs (src : List Nat) (p : Nat) : Nat → List Nat
  | 0 => []
  | n + 1 =>
    EXTRACTLOWPACKED src p :: EXTRACTHIGHPACKED src p ::
      mono12_pairs src (p + 3) n

/-- One row of `extract_Mono12Packed` starting at source offset `p`:
`width / 2` pairs (the loop bound `even_width = width & ~1` gives
`even_width / 2 = width / 2` iterations), then, if `width` is odd, one
trailing low sample read at the post-loop source pointer
`p + 3 * (width / 2)`. -/
def mono12_row (src : List Nat) (p width : Nat) : List Nat :=
  if width % 2 = 1 then
    mono12_pairs src p (width / 2) ++ [EXTRACTLOWPACKED src (p + 3 * (width / 2))]
  else
    mono12_pairs src p (width / 2)

/-- `extract_Mono12Packed` (lines 1219-1256): row `y` is decoded from
source offset `y * row_stride`. -/
def extract_Mono12Packed (width height row_stride : Nat) (src : List Nat) :
    List (List Nat) :=
  (List.range height).map (fun y => mono12_row src (y * row_stride) width)

/-! ### Packing generator for the round-trip property

The packing scheme below is the inverse described by the spec's round-trip
property ("a row of packed bytes generated from a known array of 12-bit
samples"): it is the unique byte layout from which the decoder's formulas
`low = (byte0 << 4) | (byte1 & 0xF)` and `high = (byte2 << 4) | (byte1 >> 4)`
recover the samples. -/

/-- Pack one (low, high) sample pair into its 3-byte group. -/
def packPair (lo hi : Nat) : List Nat :=
  [lo >>> 4, ((hi &&& 15) <<< 4) ||| (lo &&& 15), hi >>> 4]

/-- Pack a row of 12-bit samples: 3 bytes per full pair; an odd trailing
sample packs into the 2 bytes the low-sample formula reads. -/
def packRow : List Nat → List Nat
  | [] => []
  | [s] => [s >>> 4, s &&& 15]
  | lo :: hi :: rest => packPair lo hi ++ packRow rest

/-- Number of packed bytes in a row of `width` samples. -/
def packed_row_size (width : Nat) : Nat := 3 * (width / 2) + 2 * (width % 2)

/-! ## The camera session (`struct _camera`, lines 337-357)

`handle`, `device` and `initialized` play no part in the claims under
study and are omitted; `buffer` is `Option Nat` (`none` models a `NULL`
pointer, `some b` a pool whose base address is `b`); the `extract`
function pointer is an optional `Decoder` tag (`none` models `NULL`). -/

structure Camera where
  acquiring : Bool
  buffer : Option Nat
  buffer_size : Nat
  queue_length : Nat
  frame_size : Nat
  frame_width : Nat
  frame_height : Nat
  row_stride : Nat
  extract : Option Decoder
  deriving DecidableEq, Repr

/-- `#define FIRST_FRAME(cam) ((unsigned char*)ROUND_UP((ptrdiff_t)(cam)->buffer, FRAME_ALIGN))` -/
def FIRST_FRAME (cam : Camera) : Nat :=
  ROUND_UP (cam.buffer.getD 0) FRAME_ALIGN

/-! ## Buffer-pool resize logic (lines 606-624) -/

/-- Observable heap events of the pool-resize logic, in program order. -/
inductive PoolEvent where
  | set_empty
  | free_buf (base : Nat)
  | alloc_buf (size : Nat)
  deriving DecidableEq, Repr

/-- Lines 608-624 of `start_acquisition`: free the existing pool when its
size is wrong (members are set to `NULL`/`0` *before* the `p_free` call),
then allocate a pool of `buffer_size` bytes unless the current one already
has exactly that size.  `alloc` models a succeeding `p_malloc` (returning
the base address of the fresh block); the claims under study do not
exercise allocation failure.  Returns the updated camera and the heap
events in order. -/
def ensure_buffer (alloc : Nat → Nat) (cam : Camera) (buffer_size : Nat) :
    Camera × List PoolEvent :=
  let step1 : Camera × List PoolEvent :=
    match cam.buffer with
    | some base =>
      if cam.buffer_size > 0 then
        if buffer_size ≠ cam.buffer_size then
          ({ cam with buffer := none, buffer_size := 0 },
           [PoolEvent.set_empty, PoolEvent.free_buf base])
        else (cam, [])
      else ({ cam with buffer := none, buffer_size := 0 }, [])
    | none => ({ cam with buffer := none, buffer_size := 0 }, [])
  if buffer_size ≠ step1.1.buffer_size then
    ({ step1.1 with buffer := some (alloc buffer_size), buffer_size := buffer_size },
     step1.2 ++ [PoolEvent.alloc_buf buffer_size])
  else step1

/-! ## `start_acquisition` (lines 573-654) -/

/-- The device-side oracle for one `start_acquisition` run: the pixel
encoding string the device reports, the frozen geometry values returned by
the (assumed-succeeding) `AT_GetInt` queries, the base address `p_malloc`
would return for a requested size, and the success of the `AT_QueueBuffer`
call for slot `k`, of `AT_SetEnumString "CycleMode" "Continuous"`, and of
`AT_Command "AcquisitionStart"`. -/
structure StartEnv where
  encoding : String
  frame_size : Nat
  frame_width : Nat
  frame_height : Nat
  row_stride : Nat
  alloc : Nat → Nat
  queue_ok : Nat → Bool
  cycle_ok : Bool
  start_ok : Bool

/-- Result of a `start_acquisition` run: the camera state, the addresses
currently queued with the hardware (in queue order; `AT_Flush` empties the
list), the warnings printed, the fatal error raised by `y_error`/`throw`
(if any, naming the failing operation), and the heap events of the pool
resize. -/
structure StartResult where
  cam : Camera
  hwQueue : List Nat
  warnings : List String
  error : Option String
  poolEvents : List PoolEvent
  deriving DecidableEq, Repr

/-- The queue loop of lines 627-636: queue `n` slots starting at address
`ptr`, advancing by `stride`, slot index starting at `k`.  On the first
failing `AT_QueueBuffer` the C code flushes every queued buffer and
throws, so the returned queue is empty and the flag is `false`; on success
the returned list holds all queued addresses and the flag is `true`. -/
def queue_buffers (queue_ok : Nat → Bool) (ptr stride : Nat) :
    Nat → Nat → List Nat × Bool
  | _, 0 => ([], true)
  | k, n + 1 =>
    if queue_ok k then
      match queue_buffers queue_ok (ptr + stride) stride (k + 1) n with
      | (q, true) => (ptr :: q, true)
      | (_, false) => ([], false)
    else ([], false)

/-- `start_acquisition` (lines 573-654).  `hwQueue0` is whatever the
hardware queue holds on entry (the defensive `AT_Flush` of line 599 clears
it).  Geometry is frozen from the environment after decoder selection; the
pool is resized per `ensure_buffer`; the slots are queued in increasing
order; then cycle mode is configured and the start command issued, each
failure flushing the queued buffers and raising the corresponding error
with `acquiring` still false. -/
def start_acquisition (env : StartEnv) (hwQueue0 : List Nat) (cam : Camera) :
    StartResult :=
  if cam.acquiring then
    { cam := cam, hwQueue := hwQueue0,
      warnings := ["Camera already acquiring."], error := none, poolEvents := [] }
  else if cam.queue_length = 0 then
    { cam := cam, hwQueue := hwQueue0,
      warnings := [], error := some "set queue length first", poolEvents := [] }
  else
    let sel := select_decoder env.encoding
    let cam1 := { cam with
      extract := some sel.1,
      frame_size := env.frame_size,
      frame_width := env.frame_width,
      frame_height := env.frame_height,
      row_stride := env.row_stride }
    let frame_stride := ROUND_UP env.frame_size FRAME_ALIGN
    let buffer_size := (FRAME_ALIGN - 1) + frame_stride * cam1.queue_length
    let eb := ensure_buffer env.alloc cam1 buffer_size
    let cam2 := eb.1
    let qb := queue_buffers env.queue_ok (FIRST_FRAME cam2) frame_stride 0 cam2.queue_length
    if qb.2 = false then
      { cam := cam2, hwQueue := [], warnings := sel.2,
        error := some "AT_QueueBuffer", poolEvents := eb.2 }
    else if env.cycle_ok = false then
      { cam := cam2, hwQueue := [], warnings := sel.2,
        error := some "AT_SetEnumString CycleMode Continuous", poolEvents := eb.2 }
    else if env.start_ok = false then
      { cam := cam2, hwQueue := [], warnings := sel.2,
        error := some "AT_Command AcquisitionStart", poolEvents := eb.2 }
    else
      { cam := { cam2 with acquiring := true }, hwQueue := qb.1, warnings := sel.2,
        error := none, poolEvents := eb.2 }

/-! ## `stop_acquisition` (lines 656-679) -/

/-- Result of a `stop_acquisition` run.  `stop_attempted` /
`flush_attempted` record whether `AT_Command "AcquisitionStop"` and
`AT_Flush` were issued. -/
structure StopResult where
  cam : Camera
  warnings : List String
  error : Option String
  stop_attempted : Bool
  flush_attempted : Bool
  deriving DecidableEq, Repr

/-- `stop_acquisition(cam, final)`: no-op with a warning when not
acquiring; otherwise issue the stop command and the flush — a failing call
is reported by a warning only when `final` is false (lines 666 and 673:
`code != AT_SUCCESS && ! final`) — and clear `acquiring` unconditionally.
`stop_ok` / `flush_ok` model the success of the two hardware calls. -/
def stop_acquisition (stop_ok flush_ok : Bool) (final : Bool) (cam : Camera) :
    StopResult :=
  if cam.acquiring = false then
    { cam := cam, warnings := ["Camera not acquiring."], error := none,
      stop_attempted := false, flush_attempted := false }
  else
    let w1 := if stop_ok = false ∧ final = false then
        ["Failure of AT_Command AcquisitionStop."] else []
    let w2 := if flush_ok = false ∧ final = false then
        ["Failure of AT_Flush."] else []
    { cam := { cam with acquiring := false }, warnings := w1 ++ w2, error := none,
      stop_attempted := true, flush_attempted := true }

/-! ## `Y_andor_wait_image` (lines 1103-1138) and `check_frame` (1077-1101) -/

/-- The SDK return codes distinguished by the claims (`get_reason` knows
many more; only the shape success / timeout / other matters here). -/
inductive ATCode where
  | success
  | err_timedout
  | err_nodata
  | err_connection
  deriving DecidableEq, Repr

/-- A fatal error as raised by the plugin: `user` for a plain `y_error`
message, `hw` for `throw(descr, code)` which formats the failing operation
and the symbolic reason code. -/
inductive YError where
  | user (msg : String)
  | hw (op : String) (code : ATCode)
  deriving DecidableEq, Repr

/-- `check_frame` (lines 1077-1101) with `verbose = FALSE`: the diagnostic
warnings comparing the returned frame size against the frozen one and the
returned address against the pool bounds and stride alignment.  All
warnings are non-fatal. -/
def check_frame (cam : Camera) (frame_ptr frame_size : Nat) : List String :=
  let base := ROUND_UP (cam.buffer.getD 0) FRAME_ALIGN
  let limit := cam.buffer.getD 0 + cam.buffer_size
  let frame_stride := ROUND_UP cam.frame_size FRAME_ALIGN
  let w1 := if frame_size ≠ cam.frame_size then
      ["frame_size != cam->frame_size."] else []
  let w2 := if frame_ptr < base ∨ frame_ptr ≥ limit then
      ["Returned frame address is outside our buffers."]
    else if (frame_ptr - base) % frame_stride ≠ 0 then
      ["Returned frame is not aligned with one of our buffers."]
    else []
  w1 ++ w2

/-- Oracle for one `Y_andor_wait_image` run: the result code of
`AT_WaitBuffer` and, when it succeeds, the frame address and size it
reports, plus the success of the re-queueing `AT_QueueBuffer`. -/
structure WaitEnv where
  wait_code : ATCode
  frame_addr : Nat
  frame_size : Nat
  requeue_ok : Bool

/-- Result of a `Y_andor_wait_image` run.  `requeued` records whether the
slot was re-queued with the hardware; `decoded` whether the extract
routine ran (it runs whenever a buffer was returned and `cam->extract` is
non-`NULL`). -/
structure WaitResult where
  cam : Camera
  error : Option YError
  warnings : List String
  requeued : Bool
  decoded : Bool
  deriving DecidableEq, Repr

/-- `Y_andor_wait_image` (lines 1103-1138): state error when not
acquiring (a negative timeout is normalised to `AT_INFINITE` before the
blocking call, which this pure model does not need to track); on an
unsuccessful `AT_WaitBuffer` the error is thrown with the SDK reason code
and nothing else happens — no re-queue, no state change.  On success the
frame is validated (warnings only), decoded if a decoder is set, and
re-queued regardless of decoding; a re-queue failure throws. -/
def Y_andor_wait_image (env : WaitEnv) (_timeout : Int) (cam : Camera) :
    WaitResult :=
  if cam.acquiring = false then
    { cam := cam, error := some (YError.user "camera is not acquiring"),
      warnings := [], requeued := false, decoded := false }
  else if env.wait_code ≠ ATCode.success then
    { cam := cam, error := some (YError.hw "AT_WaitBuffer" env.wait_code),
      warnings := [], requeued := false, decoded := false }
  else
    { cam := cam,
      error := if env.requeue_ok then none
               else some (YError.hw "AT_QueueBuffer" ATCode.err_nodata),
      warnings := check_frame cam env.frame_addr env.frame_size,
      requeued := env.requeue_ok,
      decoded := cam.extract.isSome }

/-! ## Helper lemmas -/

theorem getD_map_range (f : Nat → Nat) (n k : Nat) (h : k < n) :
    ((List.range n).map f).getD k 0 = f k := by
  have hlen : k < ((List.range n).map f).length := by simpa using h
  rw [List.getD_eq_getElem _ _ hlen]
  simp

/-- When every `AT_QueueBuffer` call succeeds, the queue loop queues slot
`j` at address `ptr + j * stride` for `j < n`, in order. -/
theorem queue_buffers_all_ok (ok : Nat → Bool) (hok : ∀ j, ok j = true)
    (stride : Nat) :
    ∀ (n p k : Nat),
      queue_buffers ok p stride k n
        = ((List.range n).map (fun j => p + j * stride), true) := by
  intro n
  induction n with
  | zero => intro p k; simp [queue_buffers]
  | succ n ih =>
    intro p k
    rw [queue_buffers, hok k, if_pos rfl, ih (p + stride) (k + 1)]
    rw [List.range_succ_eq_map, List.map_cons, List.map_map]
    refine Prod.ext ?_ rfl
    simp only [Nat.zero_mul, Nat.add_zero, List.cons.injEq, true_and]
    refine List.map_congr_left ?_
    intro a _
    simp [Function.comp, Nat.succ_mul]
    omega

/-- If some slot among the first `n` fails to queue, the loop reports
failure (and the C code has flushed, so the queue is empty). -/
theorem queue_buffers_exists_fail (ok : Nat → Bool) (stride : Nat) :
    ∀ (n p k : Nat), (∃ j, j < n ∧ ok (k + j) = false) →
      queue_buffers ok p stride k n = ([], false) := by
  intro n
  induction n with
  | zero => intro p k h; exact absurd h (by simp)
  | succ n ih =>
    intro p k h
    obtain ⟨j, hj, hfail⟩ := h
    rw [queue_buffers]
    by_cases hk : ok k = true
    · have hj0 : j ≠ 0 := by
        intro h0; rw [h0, Nat.add_zero] at hfail; rw [hk] at hfail; cases hfail
      rw [hk, if_pos rfl, ih (p + stride) (k + 1) ⟨j - 1, by omega, by
        have : k + 1 + (j - 1) = k + j := by omega
        rw [this]; exact hfail⟩]
    · rw [Bool.not_eq_true] at hk
      rw [hk]
      simp

/-- `ensure_buffer` never changes the fields of the camera other than
`buffer` and `buffer_size`. -/
theorem ensure_buffer_preserves (alloc : Nat → Nat) (c : Camera) (req : Nat) :
    (ensure_buffer alloc c req).1.queue_length = c.queue_length
    ∧ (ensure_buffer alloc c req).1.acquiring = c.acquiring
    ∧ (ensure_buffer alloc c req).1.extract = c.extract
    ∧ (ensure_buffer alloc c req).1.frame_size = c.frame_size
    ∧ (ensure_buffer alloc c req).1.frame_width = c.frame_width
    ∧ (ensure_buffer alloc c req).1.frame_height = c.frame_height
    ∧ (ensure_buffer alloc c req).1.row_stride = c.row_stride := by
  unfold ensure_buffer
  cases hb : c.buffer <;> simp only [] <;> split_ifs <;> simp

/-- After `ensure_buffer` with a positive requested size, the pool has
exactly the requested size and a non-`NULL` base. -/
theorem ensure_buffer_size (alloc : Nat → Nat) (c : Camera) (req : Nat)
    (hreq : 0 < req) :
    (ensure_buffer alloc c req).1.buffer_size = req
    ∧ (ensure_buffer alloc c req).1.buffer.isSome = true := by
  unfold ensure_buffer
  cases hb : c.buffer <;> simp only [] <;> split_ifs <;> simp_all

/-- Reuse branch of the pool logic (lines 608-624): an existing pool of
exactly the required size is kept as is — no free, no allocation, no heap
event at all. -/
theorem ensure_buffer_reuse (alloc : Nat → Nat) (c : Camera) (req : Nat)
    (b : Nat) (hb : c.buffer = some b) (hs : 0 < c.buffer_size)
    (he : req = c.buffer_size) :
    ensure_buffer alloc c req = (c, []) := by
  unfold ensure_buffer
  rw [hb]
  simp [hs, he]

/-- Resize branch of the pool logic: a wrong-sized pool is freed — with
the members emptied before the `p_free` — and a fresh pool of the
required size is allocated. -/
theorem ensure_buffer_resize (alloc : Nat → Nat) (c : Camera) (req : Nat)
    (b : Nat) (hb : c.buffer = some b) (hs : 0 < c.buffer_size)
    (hne : req ≠ c.buffer_size) (hreq : 0 < req) :
    ensure_buffer alloc c req
      = ({ c with buffer := some (alloc req), buffer_size := req },
         [PoolEvent.set_empty, PoolEvent.free_buf b, PoolEvent.alloc_buf req]) := by
  unfold ensure_buffer
  rw [hb]
  simp [hs, hne]
  omega

/-- The camera state and heap events after the decoder-selection,
geometry-freeze and pool-resize phases of `start_acquisition` (everything
up to line 624). -/
def started_camera (env : StartEnv) (cam : Camera) : Camera × List PoolEvent :=
  ensure_buffer env.alloc
    { cam with
      extract := some (select_decoder env.encoding).1,
      frame_size := env.frame_size,
      frame_width := env.frame_width,
      frame_height := env.frame_height,
      row_stride := env.row_stride }
    ((FRAME_ALIGN - 1) + ROUND_UP env.frame_size FRAME_ALIGN * cam.queue_length)

/-- Characterisation of a fully successful `start_acquisition` run. -/
theorem start_success_eq (env : StartEnv) (hq : List Nat) (cam : Camera)
    (hacq : cam.acquiring = false) (hql : cam.queue_length ≠ 0)
    (hok : ∀ k, env.queue_ok k = true)
    (hcy : env.cycle_ok = true) (hst : env.start_ok = true) :
    start_acquisition env hq cam =
      { cam := { (started_camera env cam).1 with acquiring := true },
        hwQueue := (List.range cam.queue_length).map (fun j =>
          FIRST_FRAME (started_camera env cam).1
            + j * ROUND_UP env.frame_size FRAME_ALIGN),
        warnings := (select_decoder env.encoding).2,
        error := none,
        poolEvents := (started_camera env cam).2 } := by
  have h1 : ¬ cam.acquiring = true := by simp [hacq]
  have hql2 : ((started_camera env cam).1).queue_length = cam.queue_length :=
    (ensure_buffer_preserves _ _ _).1
  unfold started_camera at hql2 ⊢
  unfold start_acquisition
  rw [if_neg h1, if_neg hql]
  simp only [queue_buffers_all_ok env.queue_ok hok, hcy, hst, hql2]
  simp

/-! ## Claim C1 — pool size and slot-address layout -/

/-- Fixture: device oracle for the C1 witness (frame of 1000000 bytes,
queue of 4, all hardware calls succeeding, `p_malloc` returning base
address 1001). -/
def c1_env : StartEnv :=
  { encoding := "Mono16", frame_size := 1000000, frame_width := 1000,
    frame_height := 1000, row_stride := 1000,
    alloc := fun _ => 1001, queue_ok := fun _ => true,
    cycle_ok := true, start_ok := true }

/-- Fixture: idle camera with queue length 4 and no pool yet. -/
def c1_cam : Camera :=
  { acquiring := false, buffer := none, buffer_size := 0, queue_length := 4,
    frame_size := 0, frame_width := 0, frame_height := 0, row_stride := 0,
    extract := some Decoder.Raw }

/-- C1: for every `queue_length ≥ 1` and `frame_byte_size ≥ 1`, the buffer
pool prepared by `start_acquisition` has total size
`7 + round_up(frame_byte_size, 8) * queue_length`, the first queued slot
address is the pool base rounded up to the 8-byte boundary, and
consecutive queued slot addresses differ by exactly
`round_up(frame_byte_size, 8)`. -/
theorem c1_pool_layout (env : StartEnv) (hq : List Nat) (cam : Camera)
    (hacq : cam.acquiring = false) (hql : 1 ≤ cam.queue_length)
    (hfs : 1 ≤ env.frame_size)
    (hok : ∀ k, env.queue_ok k = true)
    (hcy : env.cycle_ok = true) (hst : env.start_ok = true) :
    (start_acquisition env hq cam).cam.buffer_size
        = 7 + ROUND_UP env.frame_size 8 * cam.queue_length
    ∧ (start_acquisition env hq cam).hwQueue.length = cam.queue_length
    ∧ (start_acquisition env hq cam).hwQueue.getD 0 0
        = ROUND_UP ((start_acquisition env hq cam).cam.buffer.getD 0) 8
    ∧ (∀ k, k + 1 < cam.queue_length →
        (start_acquisition env hq cam).hwQueue.getD (k + 1) 0
          = (start_acquisition env hq cam).hwQueue.getD k 0
            + ROUND_UP env.frame_size 8) := by
  have hql0 : cam.queue_length ≠ 0 := by omega
  rw [start_success_eq env hq cam hacq hql0 hok hcy hst]
  have hsize : (started_camera env cam).1.buffer_size
      = (FRAME_ALIGN - 1) + ROUND_UP env.frame_size FRAME_ALIGN * cam.queue_length :=
    (ensure_buffer_size _ _ _ (by simp [FRAME_ALIGN])).1
  refine ⟨?_, ?_, ?_, ?_⟩
  · simpa [FRAME_ALIGN] using hsize
  · simp
  · rw [getD_map_range _ _ 0 (by omega)]
    simp [FIRST_FRAME, FRAME_ALIGN]
  · intro k hk
    rw [getD_map_range _ _ _ (by omega), getD_map_range _ _ _ (by omega)]
    simp only [FRAME_ALIGN]
    ring

/-- Witness for C1 at `queue_length = 4`, `frame_byte_size = 1000000` (the
spec's own scenario: stride `1000000`, total size `4000007`). -/
theorem c1_pool_layout_witness :
    (start_acquisition c1_env [] c1_cam).cam.buffer_size
        = 7 + ROUND_UP 1000000 8 * 4
    ∧ (start_acquisition c1_env [] c1_cam).hwQueue.length = 4
    ∧ (start_acquisition c1_env [] c1_cam).hwQueue.getD 0 0
        = ROUND_UP ((start_acquisition c1_env [] c1_cam).cam.buffer.getD 0) 8
    ∧ (start_acquisition c1_env [] c1_cam).hwQueue.getD 1 0
        = (start_acquisition c1_env [] c1_cam).hwQueue.getD 0 0
          + ROUND_UP 1000000 8 :=
  have h := c1_pool_layout c1_env [] c1_cam rfl (by decide) (by decide)
    (fun _ => rfl) rfl rfl
  ⟨h.1, h.2.1, h.2.2.1, h.2.2.2 0 (by decide)⟩

theorem ensure_buffer_queue_length (alloc : Nat → Nat) (c : Camera) (req : Nat) :
    (ensure_buffer alloc c req).1.queue_length = c.queue_length :=
  (ensure_buffer_preserves alloc c req).1

theorem ensure_buffer_acquiring (alloc : Nat → Nat) (c : Camera) (req : Nat) :
    (ensure_buffer alloc c req).1.acquiring = c.acquiring :=
  (ensure_buffer_preserves alloc c req).2.1

theorem ensure_buffer_extract (alloc : Nat → Nat) (c : Camera) (req : Nat) :
    (ensure_buffer alloc c req).1.extract = c.extract :=
  (ensure_buffer_preserves alloc c req).2.2.1

/-- `start_acquisition` beyond its two precondition checks, phrased through
`started_camera`. -/
theorem start_main_eq (env : StartEnv) (hq : List Nat) (cam : Camera)
    (hacq : cam.acquiring = false) (hql0 : cam.queue_length ≠ 0) :
    start_acquisition env hq cam =
      (let eb := started_camera env cam
       let qb := queue_buffers env.queue_ok (FIRST_FRAME eb.1)
         (ROUND_UP env.frame_size FRAME_ALIGN) 0 cam.queue_length
       if qb.2 = false then
         { cam := eb.1, hwQueue := [], warnings := (select_decoder env.encoding).2,
           error := some "AT_QueueBuffer", poolEvents := eb.2 }
       else if env.cycle_ok = false then
         { cam := eb.1, hwQueue := [], warnings := (select_decoder env.encoding).2,
           error := some "AT_SetEnumString CycleMode Continuous", poolEvents := eb.2 }
       else if env.start_ok = false then
         { cam := eb.1, hwQueue := [], warnings := (select_decoder env.encoding).2,
           error := some "AT_Command AcquisitionStart", poolEvents := eb.2 }
       else
         { cam := { eb.1 with acquiring := true }, hwQueue := qb.1,
           warnings := (select_decoder env.encoding).2, error := none,
           poolEvents := eb.2 }) := by
  unfold start_acquisition started_camera
  rw [if_neg (by simp [hacq]), if_neg hql0]
  simp only [ensure_buffer_queue_length]

/-! ## Claim C8 — start while already acquiring is a warning-only no-op -/

/-- Fixture: an acquiring camera with a live pool and decoder. -/
def c8_cam : Camera :=
  { acquiring := true, buffer := some 16, buffer_size := 39, queue_length := 2,
    frame_size := 16, frame_width := 8, frame_height := 1, row_stride := 16,
    extract := some Decoder.Mono16 }

/-- Fixture: device oracle for the C8 witness. -/
def c8_env : StartEnv :=
  { encoding := "Mono16", frame_size := 16, frame_width := 8,
    frame_height := 1, row_stride := 16, alloc := fun _ => 64,
    queue_ok := fun _ => true, cycle_ok := true, start_ok := true }

/-- C8: calling `start_acquisition` while already acquiring leaves the
whole session state (decoder, geometry, pool, `acquiring`) and the
hardware queue untouched, and yields exactly the warning
`"Camera already acquiring."` with no error. -/
theorem c8_start_already_acquiring (env : StartEnv) (hq : List Nat)
    (cam : Camera) (hacq : cam.acquiring = true) :
    start_acquisition env hq cam
      = { cam := cam, hwQueue := hq,
          warnings := ["Camera already acquiring."], error := none,
          poolEvents := [] } := by
  unfold start_acquisition
  rw [if_pos hacq]

/-- Witness for C8 on a concrete acquiring session. -/
theorem c8_start_already_acquiring_witness :
    start_acquisition c8_env [16, 24] c8_cam
      = { cam := c8_cam, hwQueue := [16, 24],
          warnings := ["Camera already acquiring."], error := none,
          poolEvents := [] } :=
  c8_start_already_acquiring c8_env [16, 24] c8_cam rfl

/-! ## Claim C3 — `stop` with `final = true`

The claim says failures of the stop command and the flush are "downgraded
to warnings" when `final` is true.  Lines 666 and 673 guard the warning
with `code != AT_SUCCESS && ! final`: with `final` true a failure produces
*no* warning at all (it is silently ignored); the warnings exist only when
`final` is false.  The error downgrade and the unconditional transition to
idle do hold. -/

/-- Fixture: an acquiring camera being stopped. -/
def c3_cam : Camera :=
  { acquiring := true, buffer := some 16, buffer_size := 23, queue_length := 2,
    frame_size := 4, frame_width := 2, frame_height := 1, row_stride := 4,
    extract := some Decoder.Mono16 }

/-- C3 counterexample: with `final = true` and both hardware calls
failing, the run raises no error but also emits *no* warning — refuting
"failures are downgraded to warnings". -/
theorem c3_counterexample :
    ¬ ((stop_acquisition false false true c3_cam).error = none
       ∧ (stop_acquisition false false true c3_cam).warnings ≠ []) := by
  decide

/-- C3 (amended): when `stop_acquisition` is called with `final = true` on
an acquiring session, failures of the hardware stop command and of the
flush are silently ignored — neither an error nor a warning is produced
(warnings are emitted only when `final` is false) — and the controller
transitions to idle unconditionally once both calls have been attempted. -/
theorem c3_stop_final_silent (stop_ok flush_ok : Bool) (cam : Camera)
    (hacq : cam.acquiring = true) :
    stop_acquisition stop_ok flush_ok true cam
      = { cam := { cam with acquiring := false }, warnings := [],
          error := none, stop_attempted := true, flush_attempted := true } := by
  unfold stop_acquisition
  rw [if_neg (by simp [hacq])]
  simp

/-- Witness for the amended C3: both calls fail, yet the session is idle,
no error, no warning, both calls attempted. -/
theorem c3_stop_final_silent_witness :
    stop_acquisition false false true c3_cam
      = { cam := { c3_cam with acquiring := false }, warnings := [],
          error := none, stop_attempted := true, flush_attempted := true } :=
  c3_stop_final_silent false false c3_cam rfl

/-! ## Claim C4 — start failures flush and leave the controller idle -/

/-- Fixture: device oracle whose first `AT_QueueBuffer` call fails. -/
def c4_env : StartEnv :=
  { encoding := "Mono16", frame_size := 16, frame_width := 8,
    frame_height := 1, row_stride := 16, alloc := fun _ => 64,
    queue_ok := fun _ => false, cycle_ok := true, start_ok := true }

/-- Fixture: an idle camera about to start. -/
def c4_cam : Camera :=
  { acquiring := false, buffer := none, buffer_size := 0, queue_length := 2,
    frame_size := 0, frame_width := 0, frame_height := 0, row_stride := 0,
    extract := some Decoder.Raw }

/-- C4: if queuing a slot, configuring continuous cycle mode, or issuing
the start command fails, `start_acquisition` surfaces an error with the
hardware queue flushed (empty) and the controller still idle. -/
theorem c4_start_failure_flushes (env : StartEnv) (hq : List Nat)
    (cam : Camera) (hacq : cam.acquiring = false)
    (hql : 1 ≤ cam.queue_length)
    (hfail : (∃ j, j < cam.queue_length ∧ env.queue_ok j = false)
             ∨ env.cycle_ok = false ∨ env.start_ok = false) :
    (start_acquisition env hq cam).error.isSome = true
    ∧ (start_acquisition env hq cam).hwQueue = []
    ∧ (start_acquisition env hq cam).cam.acquiring = false := by
  have hql0 : cam.queue_length ≠ 0 := by omega
  have hpres : (started_camera env cam).1.acquiring = false := by
    unfold started_camera
    rw [ensure_buffer_acquiring]
    exact hacq
  rw [start_main_eq env hq cam hacq hql0]
  dsimp only
  split_ifs with h1 h2 h3
  · exact ⟨rfl, rfl, hpres⟩
  · exact ⟨rfl, rfl, hpres⟩
  · exact ⟨rfl, rfl, hpres⟩
  · exfalso
    rcases hfail with ⟨j, hj, hfj⟩ | hc | hs
    · have := queue_buffers_exists_fail env.queue_ok
        (ROUND_UP env.frame_size FRAME_ALIGN) cam.queue_length
        (FIRST_FRAME (started_camera env cam).1) 0
        ⟨j, hj, by simpa using hfj⟩
      rw [this] at h1
      exact h1 rfl
    · exact h2 hc
    · exact h3 hs

/-- Witness for C4: first queueing call fails on a concrete idle session. -/
theorem c4_start_failure_flushes_witness :
    (start_acquisition c4_env [] c4_cam).error.isSome = true
    ∧ (start_acquisition c4_env [] c4_cam).hwQueue = []
    ∧ (start_acquisition c4_env [] c4_cam).cam.acquiring = false :=
  c4_start_failure_flushes c4_env [] c4_cam rfl (by decide)
    (Or.inl ⟨0, by decide, rfl⟩)

/-! ## Claim C5 — pool reuse vs. reallocation across starts -/

/-- Fixture: oracle for the reuse case — frame size 16, queue 2, so the
required pool size is `7 + 16 * 2 = 39` bytes. -/
def c5_env_same : StartEnv :=
  { encoding := "Mono16", frame_size := 16, frame_width := 8,
    frame_height := 1, row_stride := 16, alloc := fun _ => 200,
    queue_ok := fun _ => true, cycle_ok := true, start_ok := true }

/-- Fixture: oracle for the resize case — frame size 24 changes the
required pool size to `7 + 24 * 2 = 55` bytes. -/
def c5_env_diff : StartEnv :=
  { encoding := "Mono16", frame_size := 24, frame_width := 12,
    frame_height := 1, row_stride := 24, alloc := fun _ => 300,
    queue_ok := fun _ => true, cycle_ok := true, start_ok := true }

/-- Fixture: idle camera already owning a 39-byte pool at base 100 (as
left by a previous start with the geometry of `c5_env_same`). -/
def c5_cam : Camera :=
  { acquiring := false, buffer := some 100, buffer_size := 39, queue_length := 2,
    frame_size := 16, frame_width := 8, frame_height := 1, row_stride := 16,
    extract := some Decoder.Mono16 }

/-- C5: starting with an existing pool whose size equals the newly
required size reuses it unchanged (same base, no heap event at all);
starting with a size-changing geometry/queue-length change frees the old
pool — members emptied before the free — and allocates a new pool of the
correct new size. -/
theorem c5_pool_reuse_or_realloc (env : StartEnv) (hq : List Nat)
    (cam : Camera) (b : Nat) (hacq : cam.acquiring = false)
    (hql : 1 ≤ cam.queue_length) (hb : cam.buffer = some b)
    (hs : 0 < cam.buffer_size) :
    ((7 + ROUND_UP env.frame_size 8 * cam.queue_length = cam.buffer_size →
      (start_acquisition env hq cam).cam.buffer = some b
      ∧ (start_acquisition env hq cam).cam.buffer_size = cam.buffer_size
      ∧ (start_acquisition env hq cam).poolEvents = [])
    ∧ (7 + ROUND_UP env.frame_size 8 * cam.queue_length ≠ cam.buffer_size →
      (start_acquisition env hq cam).poolEvents
        = [PoolEvent.set_empty, PoolEvent.free_buf b,
           PoolEvent.alloc_buf (7 + ROUND_UP env.frame_size 8 * cam.queue_length)]
      ∧ (start_acquisition env hq cam).cam.buffer
          = some (env.alloc (7 + ROUND_UP env.frame_size 8 * cam.queue_length))
      ∧ (start_acquisition env hq cam).cam.buffer_size
          = 7 + ROUND_UP env.frame_size 8 * cam.queue_length)) := by
  have hreq : (FRAME_ALIGN - 1) + ROUND_UP env.frame_size FRAME_ALIGN * cam.queue_length
      = 7 + ROUND_UP env.frame_size 8 * cam.queue_length := by
    norm_num [FRAME_ALIGN]
  rw [start_main_eq env hq cam hacq (by omega)]
  dsimp only
  constructor
  · intro he
    have hsc : started_camera env cam
        = ({ cam with
             extract := some (select_decoder env.encoding).1,
             frame_size := env.frame_size,
             frame_width := env.frame_width,
             frame_height := env.frame_height,
             row_stride := env.row_stride }, []) := by
      unfold started_camera
      refine ensure_buffer_reuse _ _ _ b (by simpa using hb) (by simpa using hs) ?_
      simpa using hreq.trans he
    rw [hsc]
    split_ifs <;> exact ⟨by simpa using hb, by simpa using he.symm, rfl⟩
  · intro hne
    have hsc : started_camera env cam
        = ({ cam with
             extract := some (select_decoder env.encoding).1,
             frame_size := env.frame_size,
             frame_width := env.frame_width,
             frame_height := env.frame_height,
             row_stride := env.row_stride,
             buffer := some (env.alloc
               (7 + ROUND_UP env.frame_size 8 * cam.queue_length)),
             buffer_size := 7 + ROUND_UP env.frame_size 8 * cam.queue_length },
           [PoolEvent.set_empty, PoolEvent.free_buf b,
            PoolEvent.alloc_buf
              (7 + ROUND_UP env.frame_size 8 * cam.queue_length)]) := by
      unfold started_camera
      rw [hreq]
      refine ensure_buffer_resize _ _ _ b (by simpa using hb) (by simpa using hs)
        (by simpa using hne) (by omega)
    rw [hsc]
    split_ifs <;> exact ⟨rfl, by simp, by simp⟩

/-- Witness for C5: the same session started with identical geometry
(reuse, base stays 100) and with changed geometry (free then fresh
55-byte pool at the new base 300). -/
theorem c5_pool_reuse_or_realloc_witness :
    ((start_acquisition c5_env_same [] c5_cam).cam.buffer = some 100
      ∧ (start_acquisition c5_env_same [] c5_cam).cam.buffer_size = c5_cam.buffer_size
      ∧ (start_acquisition c5_env_same [] c5_cam).poolEvents = [])
    ∧ ((start_acquisition c5_env_diff [] c5_cam).poolEvents
        = [PoolEvent.set_empty, PoolEvent.free_buf 100,
           PoolEvent.alloc_buf (7 + ROUND_UP 24 8 * 2)]
      ∧ (start_acquisition c5_env_diff [] c5_cam).cam.buffer
          = some (c5_env_diff.alloc (7 + ROUND_UP 24 8 * 2))
      ∧ (start_acquisition c5_env_diff [] c5_cam).cam.buffer_size
          = 7 + ROUND_UP 24 8 * 2) :=
  ⟨(c5_pool_reuse_or_realloc c5_env_same [] c5_cam 100 rfl (by decide) rfl
      (by decide)).1 (by decide),
   (c5_pool_reuse_or_realloc c5_env_diff [] c5_cam 100 rfl (by decide) rfl
      (by decide)).2 (by decide)⟩

/-! ## Claim C6 — unmatched encoding: raw fallback, one warning -/

theorem encoding_search_none (enc : String) :
    ∀ (l : List (String × Decoder)) (i : Nat),
      (∀ p ∈ l, p.1 ≠ enc) → encoding_search enc l i = -1 := by
  intro l
  induction l with
  | nil => intro i _; rfl
  | cons p rest ih =>
    intro i h
    obtain ⟨name, d⟩ := p
    rw [encoding_search]
    have hne : name ≠ enc := h (name, d) (List.mem_cons_self _ _)
    rw [show (name == enc) = false from beq_eq_false_iff_ne.mpr hne]
    rw [Bool.and_false, if_neg (by simp)]
    exact ih (i + 1) (fun q hq => h q (List.mem_cons_of_mem _ hq))

/-- Fixture: oracle reporting an encoding string absent from the table. -/
def c6_env : StartEnv :=
  { encoding := "Mono12Pack", frame_size := 16, frame_width := 8,
    frame_height := 1, row_stride := 16, alloc := fun _ => 64,
    queue_ok := fun _ => true, cycle_ok := true, start_ok := true }

/-- Fixture: idle camera for the C6 witness. -/
def c6_cam : Camera :=
  { acquiring := false, buffer := none, buffer_size := 0, queue_length := 2,
    frame_size := 0, frame_width := 0, frame_height := 0, row_stride := 0,
    extract := some Decoder.Raw }

/-- C6: for every encoding string matching no `pixel_encoding_table` row,
`start_acquisition` selects the raw-copy decoder and emits exactly the one
warning `"Unknown pixel encoding."`; the raw decoder emits no per-frame
warning, so across `n` subsequent frames the total warning count for the
encoding stays exactly 1. -/
theorem c6_unknown_encoding_fallback (env : StartEnv) (hq : List Nat)
    (cam : Camera) (hacq : cam.acquiring = false)
    (hql : 1 ≤ cam.queue_length)
    (henc : ∀ p ∈ pixel_encoding_table, p.1 ≠ env.encoding) :
    (start_acquisition env hq cam).cam.extract = some Decoder.Raw
    ∧ (start_acquisition env hq cam).warnings = ["Unknown pixel encoding."]
    ∧ ∀ n, (start_acquisition env hq cam).warnings.length
        + extract_call_warnings Decoder.Raw n = 1 := by
  have hlookup : get_pixel_encoding env.encoding = -1 :=
    encoding_search_none env.encoding pixel_encoding_table 0 henc
  have hsel : select_decoder env.encoding
      = (Decoder.Raw, ["Unknown pixel encoding."]) := by
    unfold select_decoder
    rw [if_pos hlookup]
  have hext : (started_camera env cam).1.extract = some Decoder.Raw := by
    unfold started_camera
    rw [ensure_buffer_extract]
    simp [hsel]
  rw [start_main_eq env hq cam hacq (by omega)]
  dsimp only
  split_ifs <;>
    exact ⟨by simpa using hext, by rw [hsel],
      fun n => by rw [hsel]; simp [extract_call_warnings, extract_warns_once]⟩

/-- Witness for C6 with the unmatched encoding string `"Mono12Pack"`. -/
theorem c6_unknown_encoding_fallback_witness :
    (start_acquisition c6_env [] c6_cam).cam.extract = some Decoder.Raw
    ∧ (start_acquisition c6_env [] c6_cam).warnings
        = ["Unknown pixel encoding."]
    ∧ (start_acquisition c6_env [] c6_cam).warnings.length
        + extract_call_warnings Decoder.Raw 5 = 1 :=
  have h := c6_unknown_encoding_fallback c6_env [] c6_cam rfl (by decide)
    (by decide)
  ⟨h.1, h.2.1, h.2.2 5⟩

/-! ## Claim C9 — timeout in the wait loop -/

/-- Fixture: oracle whose `AT_WaitBuffer` times out. -/
def c9_env : WaitEnv :=
  { wait_code := ATCode.err_timedout, frame_addr := 0, frame_size := 0,
    requeue_ok := true }

/-- Fixture: a fully acquiring session for the C9 witness. -/
def c9_cam : Camera :=
  { acquiring := true, buffer := some 16, buffer_size := 39, queue_length := 2,
    frame_size := 16, frame_width := 8, frame_height := 1, row_stride := 16,
    extract := some Decoder.Mono16 }

/-- C9: when `AT_WaitBuffer` times out, `Y_andor_wait_image` fails with a
timeout-kind hardware error (`AT_WaitBuffer`, `AT_ERR_TIMEDOUT`), performs
no re-queue and no decode, and leaves the whole session state —
`acquiring`, decoder, geometry, pool — unchanged. -/
theorem c9_wait_timeout (env : WaitEnv) (t : Int) (cam : Camera)
    (hacq : cam.acquiring = true)
    (hto : env.wait_code = ATCode.err_timedout) :
    Y_andor_wait_image env t cam
      = { cam := cam,
          error := some (YError.hw "AT_WaitBuffer" ATCode.err_timedout),
          warnings := [], requeued := false, decoded := false } := by
  unfold Y_andor_wait_image
  rw [if_neg (by simp [hacq]), if_pos (by rw [hto]; decide), hto]

/-- Witness for C9 on a concrete acquiring session with a 100 ms timeout. -/
theorem c9_wait_timeout_witness :
    Y_andor_wait_image c9_env 100 c9_cam
      = { cam := c9_cam,
          error := some (YError.hw "AT_WaitBuffer" ATCode.err_timedout),
          warnings := [], requeued := false, decoded := false } :=
  c9_wait_timeout c9_env 100 c9_cam rfl rfl

/-! ## Claim C7 — monochrome decoders: bulk copy and stride padding -/

theorem getByte_bulk_copy (n : Nat) (src : List Nat) (i : Nat) (h : i < n) :
    getByte (bulk_copy n src) i = getByte src i := by
  unfold bulk_copy getByte
  exact getD_map_range _ n i h

theorem readLE_bulk_copy (esize : Nat) :
    ∀ (n i : Nat) (src : List Nat), i + esize ≤ n →
      readLE esize (bulk_copy n src) i = readLE esize src i := by
  induction esize with
  | zero => intros; rfl
  | succ e ih =>
    intro n i src h
    rw [readLE, readLE, getByte_bulk_copy n src i (by omega),
      ih n (i + 1) src (by omega)]

theorem readLE_congr (esize : Nat) :
    ∀ (src src' : List Nat) (i : Nat),
      (∀ j, j < esize → getByte src (i + j) = getByte src' (i + j)) →
      readLE esize src i = readLE esize src' i := by
  induction esize with
  | zero => intros; rfl
  | succ e ih =>
    intro src src' i h
    rw [readLE, readLE, show getByte src i = getByte src' i by
      simpa using h 0 (by omega)]
    rw [ih src src' (i + 1) (fun j hj => by
      have h2 := h (j + 1) (by omega)
      rw [show i + 1 + j = i + (j + 1) from by omega]
      exact h2)]

/-- `memcpy` branch of the monochrome macro: with `row_stride` equal to
the tight row size, the decoded output is exactly the dense interpretation
of one bulk copy of `height * row_size` bytes. -/
theorem extract_mono_bulk (esize width height : Nat) (src : List Nat) :
    extract_mono esize width height (esize * width) src
      = bulk_decode esize width height (bulk_copy (height * (esize * width)) src) := by
  unfold extract_mono bulk_decode
  rw [if_pos rfl]
  refine List.map_congr_left ?_
  intro y hy
  refine List.map_congr_left ?_
  intro x hx
  rw [List.mem_range] at hy hx
  refine (readLE_bulk_copy esize _ _ src ?_).symm
  have h1 : y * width + x + 1 ≤ (y + 1) * width := by
    have : y * width + (x + 1) ≤ y * width + width := by omega
    calc y * width + x + 1 = y * width + (x + 1) := by omega
      _ ≤ y * width + width := this
      _ = (y + 1) * width := by ring
  have h2 : (y + 1) * width ≤ height * width := Nat.mul_le_mul (by omega) le_rfl
  calc esize * (y * width + x) + esize = esize * (y * width + x + 1) := by ring
    _ ≤ esize * (height * width) := Nat.mul_le_mul le_rfl (le_trans h1 h2)
    _ = height * (esize * width) := by ring

/-- Row-by-row branch of the monochrome macro: with `row_stride` strictly
larger than the tight row size, the padding bytes at the end of each
source row are ignored — two sources agreeing on the non-padding bytes
decode identically. -/
theorem extract_mono_padding (esize width height stride : Nat)
    (src src' : List Nat) (hst : esize * width < stride)
    (hagree : ∀ y x, y < height → x < esize * width →
      getByte src (y * stride + x) = getByte src' (y * stride + x)) :
    extract_mono esize width height stride src
      = extract_mono esize width height stride src' := by
  unfold extract_mono
  rw [if_neg (by omega), if_neg (by omega)]
  refine List.map_congr_left ?_
  intro y hy
  refine List.map_congr_left ?_
  intro x hx
  rw [List.mem_range] at hy hx
  refine readLE_congr esize src src' _ (fun j hj => ?_)
  have hlt : esize * x + j < esize * width :=
    calc esize * x + j < esize * x + esize := by omega
      _ = esize * (x + 1) := by ring
      _ ≤ esize * width := Nat.mul_le_mul le_rfl (by omega)
  have h2 := hagree y (esize * x + j) hy hlt
  rw [show y * stride + esize * x + j = y * stride + (esize * x + j) from by omega]
  exact h2

/-- C7: for the monochrome decoders with equal source and destination
element size, (1) when `row_stride` equals `width * element_size` the
output is byte-identical to the dense decode of a single bulk copy of
`height * row_size` bytes; (2) when `row_stride` exceeds the tight row
size, the per-row copy ignores the padding bytes entirely; and (3) the
Mono16 scenario `width = 4`, `height = 2`, `row_stride = 8` with bytes
`[1,0, 2,0, ..., 8,0]` decodes to `[[1,2,3,4],[5,6,7,8]]`. -/
theorem c7_mono_decoder_strides :
    (∀ esize width height src,
      extract_mono esize width height (esize * width) src
        = bulk_decode esize width height
            (bulk_copy (height * (esize * width)) src))
    ∧ (∀ esize width height stride src src', esize * width < stride →
        (∀ y x, y < height → x < esize * width →
          getByte src (y * stride + x) = getByte src' (y * stride + x)) →
        extract_mono esize width height stride src
          = extract_mono esize width height stride src')
    ∧ extract_Mono16 4 2 8 [1, 0, 2, 0, 3, 0, 4, 0, 5, 0, 6, 0, 7, 0, 8, 0]
        = [[1, 2, 3, 4], [5, 6, 7, 8]] :=
  ⟨extract_mono_bulk,
   fun esize width height stride src src' hst hagree =>
     extract_mono_padding esize width height stride src src' hst hagree,
   by decide⟩

/-- Witness for C7: the padded Mono8 row `[5, 0]` with stride 2 and width
1 decodes identically whatever the padding byte holds. -/
theorem c7_mono_decoder_strides_witness :
    extract_mono 1 1 1 2 [5, 0] = extract_mono 1 1 1 2 [5, 9] :=
  c7_mono_decoder_strides.2.1 1 1 1 2 [5, 0] [5, 9] (by decide)
    (fun y x hy hx => by
      have hy0 : y = 0 := by omega
      have hx0 : x = 0 := by omega
      rw [hy0, hx0]
      rfl)

/-! ## Claim C10 — the `"Mono12"` encoding -/

/-- C10: the encoding `"Mono12"` resolves to its own table row (not the
raw fallback) with no selection warning; its decoder is the same
element-wise 16-bit, `row_stride`-honouring routine as Mono16 (both are
the `FUNCTION` macro at element size 2); and it is not one of the
one-time-warning fallback routines. -/
theorem c10_mono12_decoder :
    select_decoder "Mono12" = (Decoder.Mono12, [])
    ∧ (∀ width height stride src,
        extract_Mono12 width height stride src
          = extract_Mono16 width height stride src)
    ∧ Decoder.Mono12 ≠ Decoder.Raw
    ∧ extract_warns_once Decoder.Mono12 = false :=
  ⟨by decide, fun _ _ _ _ => rfl, by decide, rfl⟩

/-! ## Claim C2 — Mono12Packed round trip -/

theorem getByte_append_left (l rest : List Nat) (i : Nat) (h : i < l.length) :
    getByte (l ++ rest) i = getByte l i :=
  List.getD_append l rest 0 i h

theorem getByte_append_right (l rest : List Nat) (i : Nat) :
    getByte (l ++ rest) (l.length + i) = getByte rest i := by
  unfold getByte
  rw [List.getD_append_right l rest 0 (l.length + i) (by omega)]
  congr 1
  omega

theorem packRow_length : ∀ r : List Nat,
    (packRow r).length = packed_row_size r.length
  | [] => by simp [packRow, packed_row_size]
  | [s] => by simp [packRow, packed_row_size]
  | lo :: hi :: rest => by
    have ih := packRow_length rest
    simp only [packRow, packPair, List.length_append, List.length_cons,
      List.length_nil, packed_row_size] at ih ⊢
    omega

theorem mono12_row_succ_succ (src : List Nat) (p w : Nat) :
    mono12_row src p (w + 2)
      = EXTRACTLOWPACKED src p :: EXTRACTHIGHPACKED src p ::
          mono12_row src (p + 3) w := by
  unfold mono12_row
  have h2 : (w + 2) / 2 = w / 2 + 1 := by omega
  have h3 : (w + 2) % 2 = w % 2 := by omega
  rw [h2, h3]
  have h4 : p + 3 * (w / 2 + 1) = p + 3 + 3 * (w / 2) := by ring
  by_cases hw : w % 2 = 1
  · rw [if_pos hw, if_pos hw, mono12_pairs, h4]
    simp
  · rw [if_neg hw, if_neg hw, mono12_pairs]

theorem low_of_packed (lo hi : Nat) :
    ((lo >>> 4) <<< 4) ||| ((((hi &&& 15) <<< 4) ||| (lo &&& 15)) &&& 15) = lo := by
  have e1 : (hi &&& 15) <<< 4 ||| (lo &&& 15) = 16 * (hi % 16) + lo % 16 := by
    rw [and_fifteen, and_fifteen, or_of_low _ _ (by omega)]
  rw [e1, and_fifteen, shiftRight_four, or_of_low _ _ (by omega)]
  omega

theorem high_of_packed (lo hi : Nat) :
    ((hi >>> 4) <<< 4) ||| ((((hi &&& 15) <<< 4) ||| (lo &&& 15)) >>> 4) = hi := by
  have e1 : (hi &&& 15) <<< 4 ||| (lo &&& 15) = 16 * (hi % 16) + lo % 16 := by
    rw [and_fifteen, and_fifteen, or_of_low _ _ (by omega)]
  rw [e1, shiftRight_four, shiftRight_four, or_of_low _ _ (by omega)]
  omega

theorem low_of_packed_single (s : Nat) :
    ((s >>> 4) <<< 4) ||| ((s &&& 15) &&& 15) = s := by
  rw [shiftRight_four, and_fifteen, and_fifteen, or_of_low _ _ (by omega)]
  omega

/-- Decoding one row from any source that holds the packed bytes of that
row at offset `p` recovers the row exactly (trailing odd column
included). -/
theorem mono12_row_pack : ∀ (r src : List Nat) (p : Nat),
    (∀ i, i < (packRow r).length → getByte src (p + i) = getByte (packRow r) i) →
    mono12_row src p r.length = r
  | [], src, p, _ => by
    simp [mono12_row, mono12_pairs]
  | [s], src, p, h => by
    have h0 := h 0 (by simp [packRow])
    have h1 := h 1 (by simp [packRow])
    simp only [packRow, getByte, List.getD_cons_zero, List.getD_cons_succ,
      Nat.add_zero] at h0 h1
    show mono12_row src p 1 = [s]
    unfold mono12_row
    rw [if_pos (by norm_num)]
    simp only [mono12_pairs, Nat.mul_zero, Nat.add_zero, List.nil_append,
      show (1 : Nat) / 2 = 0 from rfl]
    unfold EXTRACTLOWPACKED getByte
    rw [h0, h1, low_of_packed_single s]
  | lo :: hi :: rest, src, p, h => by
    have hplen : (packRow (lo :: hi :: rest)).length = 3 + (packRow rest).length := by
      simp only [packRow, packPair, List.length_append, List.length_cons,
        List.length_nil]
    have htail : ∀ i, i < (packRow rest).length →
        getByte src (p + 3 + i) = getByte (packRow rest) i := by
      intro i hi2
      have h3 := h (3 + i) (by omega)
      rw [show p + (3 + i) = p + 3 + i from by omega] at h3
      rw [h3, show packRow (lo :: hi :: rest) = packPair lo hi ++ packRow rest
        from rfl, show (3 : Nat) + i = (packPair lo hi).length + i from by
          simp [packPair], getByte_append_right]
    have h0 := h 0 (by omega)
    have h1 := h 1 (by omega)
    have h2 := h 2 (by omega)
    simp only [packRow, packPair, List.cons_append, getByte,
      List.getD_cons_zero, List.getD_cons_succ, Nat.add_zero] at h0 h1 h2
    have hlow : EXTRACTLOWPACKED src p = lo := by
      unfold EXTRACTLOWPACKED getByte
      rw [h0, h1]
      exact low_of_packed lo hi
    have hhigh : EXTRACTHIGHPACKED src p = hi := by
      unfold EXTRACTHIGHPACKED getByte
      rw [h1, h2]
      exact high_of_packed lo hi
    have ih := mono12_row_pack rest src (p + 3) htail
    show mono12_row src p (rest.length + 2) = lo :: hi :: rest
    rw [mono12_row_succ_succ, hlow, hhigh, ih]

theorem EXTRACTLOWPACKED_shift (l rest : List Nat) (q : Nat) :
    EXTRACTLOWPACKED (l ++ rest) (l.length + q) = EXTRACTLOWPACKED rest q := by
  unfold EXTRACTLOWPACKED
  rw [getByte_append_right,
    show l.length + q + 1 = l.length + (q + 1) from by omega,
    getByte_append_right]

theorem EXTRACTHIGHPACKED_shift (l rest : List Nat) (q : Nat) :
    EXTRACTHIGHPACKED (l ++ rest) (l.length + q) = EXTRACTHIGHPACKED rest q := by
  unfold EXTRACTHIGHPACKED
  rw [show l.length + q + 2 = l.length + (q + 2) from by omega,
    getByte_append_right,
    show l.length + q + 1 = l.length + (q + 1) from by omega,
    getByte_append_right]

theorem mono12_pairs_shift (l rest : List Nat) :
    ∀ (n q : Nat),
      mono12_pairs (l ++ rest) (l.length + q) n = mono12_pairs rest q n := by
  intro n
  induction n with
  | zero => intro q; rfl
  | succ n ih =>
    intro q
    rw [mono12_pairs, mono12_pairs, EXTRACTLOWPACKED_shift,
      EXTRACTHIGHPACKED_shift,
      show l.length + q + 3 = l.length + (q + 3) from by omega, ih (q + 3)]

theorem mono12_row_shift (l rest : List Nat) (q w : Nat) :
    mono12_row (l ++ rest) (l.length + q) w = mono12_row rest q w := by
  unfold mono12_row
  split_ifs
  · rw [mono12_pairs_shift,
      show l.length + q + 3 * (w / 2) = l.length + (q + 3 * (w / 2)) from by omega,
      EXTRACTLOWPACKED_shift]
  · rw [mono12_pairs_shift]

/-- Frame-level round trip: decoding the row-wise concatenation of packed
rows recovers every row. -/
theorem mono12_decode_join (width : Nat) :
    ∀ rows : List (List Nat), (∀ r ∈ rows, r.length = width) →
      extract_Mono12Packed width rows.length (packed_row_size width)
        ((rows.map packRow).join) = rows := by
  intro rows
  induction rows with
  | nil => intro _; simp [extract_Mono12Packed]
  | cons r rs ih =>
    intro hlen
    have hr : r.length = width := hlen r (List.mem_cons_self _ _)
    have hS : (packRow r).length = packed_row_size width := by
      rw [packRow_length, hr]
    have hsrc : ((r :: rs).map packRow).join
        = packRow r ++ ((rs.map packRow).join) := by
      simp
    unfold extract_Mono12Packed at ih ⊢
    rw [List.length_cons, List.range_succ_eq_map, List.map_cons, List.map_map,
      hsrc]
    congr 1
    · rw [Nat.zero_mul, ← hr]
      refine mono12_row_pack r _ 0 (fun i hi2 => ?_)
      rw [Nat.zero_add]
      exact getByte_append_left (packRow r) _ i hi2
    · refine Eq.trans ?_ (ih (fun q hq => hlen q (List.mem_cons_of_mem _ hq)))
      refine List.map_congr_left (fun y _ => ?_)
      simp only [Function.comp]
      rw [show Nat.succ y * packed_row_size width
          = (packRow r).length + y * packed_row_size width from by
            rw [hS, Nat.succ_mul]; ring]
      exact mono12_row_shift (packRow r) ((rs.map packRow).join)
        (y * packed_row_size width) width

/-- C2: for every `width ≥ 1`, `height ≥ 1` and every array of 12-bit
samples packed row-wise with the 3-bytes-per-2-samples scheme (low sample
`(byte0 << 4) | (byte1 & 0xF)`, high sample `(byte2 << 4) | (byte1 >> 4)`),
`extract_Mono12Packed` reproduces the original samples exactly, including
the trailing single low-sample column when the width is odd. -/
theorem c2_mono12packed_roundtrip (rows : List (List Nat)) (width : Nat)
    (hw : 1 ≤ width) (hh : 1 ≤ rows.length)
    (hlen : ∀ r ∈ rows, r.length = width)
    (hval : ∀ r ∈ rows, ∀ s ∈ r, s < 4096) :
    extract_Mono12Packed width rows.length (packed_row_size width)
        ((rows.map packRow).join) = rows :=
  mono12_decode_join width rows hlen

/-- Witness for C2 at the spec's odd-width example `width = 5` (two full
pairs plus one trailing low sample): the packed bytes of the row
`[257, 4095, 0, 16, 9]` decode back to it. -/
theorem c2_mono12packed_roundtrip_witness :
    extract_Mono12Packed 5 1 8 [16, 241, 255, 0, 0, 1, 0, 9]
      = [[257, 4095, 0, 16, 9]] :=
  c2_mono12packed_roundtrip [[257, 4095, 0, 16, 9]] 5 (by decide) (by decide)
    (by decide) (by decide)
